import Mathlib

/-!
Shallow embedding of the Poker-Excel tournament manager core:
src/core.py (TournamentManager: create_tournament_excel, create_tournament,
update_tournament_history, update_tournament_elimination) and src/app.py
(format_tournament_data, and the admin create-tournament form handler).

Modelling conventions:
* A pandas DataFrame holding a tournament ledger is a `Ledger`: its list of
  column names plus one `Slot` per row; a NaN cell is `none`.
* The tournaments.json registry and the per-tournament Excel files on disk
  form a `SysState` (association lists keyed by tournament name, in
  insertion order, matching Python dict order and one file per tournament).
* A raised Python exception is `Except.error`; since every raise in the
  modelled code happens before any file write on that path, an error result
  produces no new state, matching the unchanged files on disk.
* Wall-clock timestamps (datetime.now()) are not modelled; audit entries
  keep their action and details strings, in append order.
* Python floats are modelled as rationals, with round() as round-half-even
  of the exact value; int(x) is integer truncation.
-/

namespace PokerExcel

/-- Symbolic names for the exceptions the modelled code raises; the spec
refers to them by these names while the Python code raises ValueError /
KeyError / FileNotFoundError / TypeError with messages. -/
inductive Err where
  | duplicateNameError
  | tournamentNotFoundError
  | fileNotFoundError
  | ledgerFullError
  | missingColumnError
  | typeError
  | participantCountError
  | duplicateParticipantError
  | emptyNameError
  | noEarningsError
  deriving DecidableEq, Repr

/-- One row of a tournament's Excel ledger. `none` is a NaN cell. The
"Bounty Claimed From" column created at init is never written by any code
path, so it stays all-NaN and is tracked only in `Ledger.columns`. -/
structure Slot where
  rank : Nat
  player : Option String
  eliminationTime : Option String
  eliminatedBy : Option String
  bountyPoints : Option Nat
  deriving DecidableEq, Repr

/-- A tournament's Excel ledger file: the DataFrame column names plus its
rows. -/
structure Ledger where
  columns : List String
  rows : List Slot
  deriving DecidableEq, Repr

/-- One entry of a tournament's history list (timestamp not modelled). -/
structure AuditEntry where
  action : String
  details : String
  deriving DecidableEq, Repr

/-- The dict stored per tournament in tournaments.json
(core.py:127-137). -/
structure TournamentData where
  name : String
  num_players : Nat
  participants : List String
  bounties : List String
  stack_size : Nat
  comment : String
  earnings : List (Nat × Nat)
  history : List AuditEntry
  deriving DecidableEq, Repr

/-- The persistent state: the tournaments.json registry and the
tournament_{name}.xlsx ledger files. -/
structure SysState where
  registry : List (String × TournamentData)
  ledgers : List (String × Ledger)
  deriving DecidableEq, Repr

/-- Python dict lookup on an insertion-ordered association list. -/
def lookupAssoc {α : Type} : List (String × α) → String → Option α
  | [], _ => none
  | (k2, v) :: rest, k => if k2 = k then some v else lookupAssoc rest k

/-- Python dict assignment d[k] = v (overwrite in place, or append a new
key); also models overwriting / creating a file named k. -/
def updateAssoc {α : Type} : List (String × α) → String → α → List (String × α)
  | [], k, v => [(k, v)]
  | (k2, v2) :: rest, k, v =>
      if k2 = k then (k, v) :: rest else (k2, v2) :: updateAssoc rest k v

/-- The columns written by create_tournament_excel (core.py:116). -/
def initLedgerColumns : List String :=
  ["Rank", "Player", "Elimination Time", "Eliminated By", "Bounty Claimed From"]

/-- TournamentManager.create_tournament_excel (core.py:114-119): an empty
DataFrame with the five listed columns gets its Rank column assigned
range(num_players, 0, -1), which expands it to num_players rows whose other
cells are NaN; the result is saved as tournament_{name}.xlsx. -/
def create_tournament_excel (num_players : Nat) : Ledger :=
  { columns := initLedgerColumns,
    rows := (List.range num_players).map (fun i =>
      { rank := num_players - i, player := none, eliminationTime := none,
        eliminatedBy := none, bountyPoints := none }) }

/-- TournamentManager.create_tournament (core.py:121-143): raises if the
name is already registered (before any write), otherwise stores the
tournament record, saves the registry, and writes the initial ledger
file. -/
def create_tournament (st : SysState) (name : String) (num_players : Nat)
    (participants : List String) (bounties : List String) (stack_size : Nat)
    (comment : String) (earnings : List (Nat × Nat)) : Except Err SysState :=
  if (lookupAssoc st.registry name).isSome then
    Except.error Err.duplicateNameError
  else
    let tournament_data : TournamentData :=
      { name := name, num_players := num_players, participants := participants,
        bounties := bounties, stack_size := stack_size, comment := comment,
        earnings := earnings, history := [] }
    Except.ok
      { registry := updateAssoc st.registry name tournament_data,
        ledgers := updateAssoc st.ledgers name (create_tournament_excel num_players) }

/-- Total prize pool sum(earnings.values()) (app.py:299). -/
def sumEarnings (earnings : List (Nat × Nat)) : Nat :=
  (earnings.map Prod.snd).sum

/-- The admin create-tournament form submit handler (app.py:355-385): the
participant-count, duplicate-participant, empty-name and zero-earnings
checks are performed in the UI before TournamentManager.create_tournament
is called; each st.error message is modelled as a distinct error value.
The duplicate check len(set(participants)) != len(participants) is
modelled with List.dedup. -/
def admin_create_submit (st : SysState) (tournament_name : String) (num_players : Nat)
    (participants : List String) (bounties : List String) (stack_size : Nat)
    (comment : String) (earnings : List (Nat × Nat)) : Except Err SysState :=
  if participants.length ≠ num_players then
    Except.error Err.participantCountError
  else if participants.dedup.length ≠ participants.length then
    Except.error Err.duplicateParticipantError
  else if tournament_name = "" then
    Except.error Err.emptyNameError
  else if sumEarnings earnings = 0 then
    Except.error Err.noEarningsError
  else
    create_tournament st tournament_name num_players participants bounties stack_size comment earnings

/-! ### Helper lemmas -/

lemma lookupAssoc_updateAssoc_self {α : Type} (l : List (String × α)) (k : String) (v : α) :
    lookupAssoc (updateAssoc l k v) k = some v := by
  induction l with
  | nil => simp [lookupAssoc, updateAssoc]
  | cons p rest ih =>
    obtain ⟨k2, v2⟩ := p
    by_cases h : k2 = k
    · simp [lookupAssoc, updateAssoc, h]
    · simp [lookupAssoc, updateAssoc, h, ih]

lemma lookupAssoc_updateAssoc_ne {α : Type} (l : List (String × α)) (k k2 : String) (v : α)
    (h : k2 ≠ k) : lookupAssoc (updateAssoc l k v) k2 = lookupAssoc l k2 := by
  have hk : ¬ k = k2 := fun hc => h hc.symm
  induction l with
  | nil => simp [lookupAssoc, updateAssoc, hk]
  | cons p rest ih =>
    obtain ⟨k3, v3⟩ := p
    by_cases h3 : k3 = k
    · subst h3
      simp [lookupAssoc, updateAssoc, hk]
    · simp [lookupAssoc, updateAssoc, h3, ih]

lemma create_rows_map_rank (N : Nat) :
    (create_tournament_excel N).rows.map Slot.rank = (List.range N).map (fun i => N - i) := by
  simp [create_tournament_excel, List.map_map, Function.comp]

lemma range_map_sub_eq_reverse (N : Nat) :
    (List.range N).map (fun i => N - i) = ((List.range N).map (fun i => i + 1)).reverse := by
  induction N with
  | zero => simp
  | succ n ih =>
    have hleft : (List.range (n + 1)).map (fun i => n + 1 - i)
        = (n + 1) :: (List.range n).map (fun i => n - i) := by
      rw [List.range_succ_eq_map]
      simp only [List.map_cons, List.map_map]
      refine congrArg (fun l => (n + 1 - 0) :: l) ?_
      refine List.map_congr_left ?_
      intro i _
      simp [Function.comp, Nat.succ_sub_succ]
    have hright : ((List.range (n + 1)).map (fun i => i + 1)).reverse
        = (n + 1) :: ((List.range n).map (fun i => i + 1)).reverse := by
      rw [List.range_succ]
      simp
    rw [hleft, hright, ih]

/-! ### Claim C5 -/

/-- Claim C5: after create_tournament_excel with N players, the ledger has
exactly N slots whose rank values are the descending sequence
N, N-1, ..., 1 (the reverse of [1, ..., N], hence the set {1..N} with no
duplicates), and all other slot fields are empty. -/
theorem init_ledger_slots_spec (N : Nat) :
    (create_tournament_excel N).rows.length = N ∧
    (create_tournament_excel N).rows.map Slot.rank
      = ((List.range N).map (fun i => i + 1)).reverse ∧
    ((create_tournament_excel N).rows.map Slot.rank).Nodup ∧
    (∀ r : Nat, r ∈ (create_tournament_excel N).rows.map Slot.rank ↔ 1 ≤ r ∧ r ≤ N) ∧
    (∀ s ∈ (create_tournament_excel N).rows,
      s.player = none ∧ s.eliminationTime = none ∧ s.eliminatedBy = none ∧
        s.bountyPoints = none) := by
  have hmap : (create_tournament_excel N).rows.map Slot.rank
      = ((List.range N).map (fun i => i + 1)).reverse :=
    (create_rows_map_rank N).trans (range_map_sub_eq_reverse N)
  refine ⟨?_, hmap, ?_, ?_, ?_⟩
  · simp [create_tournament_excel]
  · rw [hmap]
    refine List.nodup_reverse.mpr ?_
    exact List.Nodup.map (fun a b hab => by omega) (List.nodup_range N)
  · intro r
    rw [hmap]
    simp only [List.mem_reverse, List.mem_map, List.mem_range]
    constructor
    · rintro ⟨i, hi, rfl⟩
      omega
    · rintro ⟨h1, h2⟩
      exact ⟨r - 1, by omega, by omega⟩
  · intro s hs
    simp only [create_tournament_excel, List.mem_map, List.mem_range] at hs
    obtain ⟨i, _, rfl⟩ := hs
    exact ⟨rfl, rfl, rfl, rfl⟩

/-! ### Claim C6 -/

/-- Claim C6: if the registry already contains a tournament with the given
name, create_tournament fails with DuplicateNameError; the check happens
before any write, so the failed call performs no registry write and no
ledger write and the existing tournament's stored data is unchanged
(an error result produces no new state in this model). -/
theorem create_duplicate_name_fails (st : SysState) (nm : String) (num_players : Nat)
    (participants bounties : List String) (stack_size : Nat) (comment : String)
    (earnings : List (Nat × Nat)) (td : TournamentData)
    (h : lookupAssoc st.registry nm = some td) :
    create_tournament st nm num_players participants bounties stack_size comment earnings =
      Except.error Err.duplicateNameError := by
  simp [create_tournament, h]

def tdW6 : TournamentData :=
  { name := "T", num_players := 2, participants := ["A", "B"], bounties := [],
    stack_size := 100, comment := "", earnings := [], history := [] }

def stW6 : SysState :=
  { registry := [("T", tdW6)], ledgers := [("T", create_tournament_excel 2)] }

theorem create_duplicate_name_fails_witness :
    lookupAssoc stW6.registry "T" = some tdW6 ∧
    create_tournament stW6 "T" 2 ["A", "B"] [] 100 "" [] =
      Except.error Err.duplicateNameError :=
  ⟨rfl, create_duplicate_name_fails stW6 "T" 2 ["A", "B"] [] 100 "" [] tdW6 rfl⟩

/-! ### Claim C7 -/

/-- Claim C7 counterexample: create_tournament itself does not validate the
participant count or duplicate participant names. With a fresh name it
succeeds and persists a tournament record and a ledger even when
len(participants) != num_players (first conjunct) and even when the
participants list contains a duplicate (second conjunct). -/
theorem create_skips_participant_validation :
    create_tournament { registry := [], ledgers := [] } "T" 3 ["A", "B"] [] 100 "" [] =
      Except.ok
        { registry := [("T",
            { name := "T", num_players := 3, participants := ["A", "B"], bounties := [],
              stack_size := 100, comment := "", earnings := [], history := [] })],
          ledgers := [("T", create_tournament_excel 3)] } ∧
    create_tournament { registry := [], ledgers := [] } "U" 2 ["A", "A"] [] 100 "" [] =
      Except.ok
        { registry := [("U",
            { name := "U", num_players := 2, participants := ["A", "A"], bounties := [],
              stack_size := 100, comment := "", earnings := [], history := [] })],
          ledgers := [("U", create_tournament_excel 2)] } :=
  ⟨rfl, rfl⟩

lemma dedup_length_eq_iff (l : List String) : l.dedup.length = l.length ↔ l.Nodup := by
  constructor
  · intro h
    have hsub := List.dedup_sublist l
    have heq := hsub.eq_of_length h
    rw [← heq]
    exact List.nodup_dedup l
  · intro h
    rw [List.dedup_eq_self.mpr h]

/-- Claim C7 (amended): the participant-count and duplicate-participant
checks are made by the admin form handler in app.py before
create_tournament is called: a submission with len(participants) !=
num_players is rejected with the participant-count error and a submission
with duplicate participants is rejected with the duplicate-participant
error, in both cases before create_tournament runs, so nothing is
persisted. -/
theorem create_validation_in_form_handler (st : SysState) (tournament_name : String)
    (num_players : Nat) (participants bounties : List String) (stack_size : Nat)
    (comment : String) (earnings : List (Nat × Nat)) :
    (participants.length ≠ num_players →
      admin_create_submit st tournament_name num_players participants bounties stack_size
          comment earnings = Except.error Err.participantCountError) ∧
    (participants.length = num_players → ¬ participants.Nodup →
      admin_create_submit st tournament_name num_players participants bounties stack_size
          comment earnings = Except.error Err.duplicateParticipantError) := by
  constructor
  · intro h
    simp [admin_create_submit, h]
  · intro h hnd
    have hd : participants.dedup.length ≠ participants.length :=
      fun hc => hnd ((dedup_length_eq_iff participants).mp hc)
    rw [h] at hd
    simp [admin_create_submit, h, hd]

theorem create_validation_in_form_handler_witness :
    admin_create_submit { registry := [], ledgers := [] } "T" 3 ["A", "B"] [] 100 "" [] =
      Except.error Err.participantCountError ∧
    admin_create_submit { registry := [], ledgers := [] } "U" 2 ["A", "A"] [] 100 "" [] =
      Except.error Err.duplicateParticipantError :=
  ⟨(create_validation_in_form_handler { registry := [], ledgers := [] } "T" 3 ["A", "B"] []
      100 "" []).1 (by decide),
   (create_validation_in_form_handler { registry := [], ledgers := [] } "U" 2 ["A", "A"] []
      100 "" []).2 (by decide) (by decide)⟩

/-! ### Elimination ledger engine -/

/-- Details string of the "Bounty Claimed" history entry (core.py:190). -/
def bountyDetails (eliminated_by player : String) : String :=
  eliminated_by ++ " claimed bounty point for eliminating " ++ player

/-- Index of the first row whose Player cell is NaN:
df['Player'].isna() followed by idxmax() under the .any() guard
(core.py:174-176); none when every row is filled. -/
def firstEmptyIdx : List Slot → Option Nat
  | [] => none
  | s :: rest =>
    if s.player.isNone then some 0 else (firstEmptyIdx rest).map (fun i => i + 1)

/-- Apply a row update at one index, leaving every other row alone
(the df.loc[idx, col] = value writes of core.py:177-183). -/
def modifyAt (f : Slot → Slot) : Nat → List Slot → List Slot
  | _, [] => []
  | 0, s :: rest => f s :: rest
  | n + 1, s :: rest => s :: modifyAt f n rest

/-- The four cell writes of core.py:177-183 merged into one row update. -/
def filledSlot (player elimination_time eliminated_by : String) (bounty_points : Nat)
    (s : Slot) : Slot :=
  { s with
    player := some player
    eliminationTime := some elimination_time
    eliminatedBy := some eliminated_by
    bountyPoints := some bounty_points }

/-- TournamentManager.update_tournament_history (core.py:145-158): raises
if the tournament is unknown, else appends an entry to its history and
saves the registry. -/
def update_tournament_history (st : SysState) (name action details : String) :
    Except Err SysState :=
  match lookupAssoc st.registry name with
  | none => Except.error Err.tournamentNotFoundError
  | some td =>
    let td2 : TournamentData :=
      { td with history := td.history ++ [{ action := action, details := details }] }
    Except.ok { st with registry := updateAssoc st.registry name td2 }

/-- TournamentManager.update_tournament_elimination (core.py:160-199):
loads the registry (KeyError on an unknown tournament) and the ledger file
(FileNotFoundError if missing), finds the first row whose Player cell is
NaN, writes player, elimination time, eliminator and the bounty points
into that row (pandas appends the new "Bounty Points" column at the end of
the column list the first time it is written), updates the tournament
history when a bounty is claimed, and saves the ledger; when no row is
empty it raises before any write, so the files are untouched. -/
def update_tournament_elimination (st : SysState)
    (tournament_name player elimination_time eliminated_by : String) :
    Except Err SysState :=
  match lookupAssoc st.registry tournament_name with
  | none => Except.error Err.tournamentNotFoundError
  | some tournament_data =>
    match lookupAssoc st.ledgers tournament_name with
    | none => Except.error Err.fileNotFoundError
    | some df =>
      match firstEmptyIdx df.rows with
      | none => Except.error Err.ledgerFullError
      | some idx =>
        let bounty_points : Nat := if player ∈ tournament_data.bounties then 1 else 0
        let rows2 :=
          modifyAt (filledSlot player elimination_time eliminated_by bounty_points) idx df.rows
        let cols2 := if df.columns.contains "Bounty Points" then df.columns
          else df.columns ++ ["Bounty Points"]
        match (if bounty_points > 0 then
            update_tournament_history st tournament_name "Bounty Claimed"
              (bountyDetails eliminated_by player)
          else Except.ok st) with
        | Except.error e => Except.error e
        | Except.ok st2 =>
          let df2 : Ledger := { columns := cols2, rows := rows2 }
          Except.ok { st2 with ledgers := updateAssoc st2.ledgers tournament_name df2 }

/-- One elimination event as submitted through the app.py form. -/
structure Elim where
  player : String
  time : String
  eliminated_by : String
  deriving DecidableEq, Repr

/-- A sequence of update_tournament_elimination calls for one tournament,
stopping at the first raised error (app.py records one elimination per
form submission). -/
def recordElims : SysState → String → List Elim → Except Err SysState
  | st, _, [] => Except.ok st
  | st, nm, e :: rest =>
    match update_tournament_elimination st nm e.player e.time e.eliminated_by with
    | Except.error err => Except.error err
    | Except.ok st2 => recordElims st2 nm rest

/-! ### Helper lemmas for the elimination engine -/

lemma firstEmptyIdx_append (F : List Slot) (s : Slot) (E : List Slot)
    (hF : ∀ x ∈ F, x.player.isSome) (hs : s.player = none) :
    firstEmptyIdx (F ++ s :: E) = some F.length := by
  induction F with
  | nil => simp [firstEmptyIdx, hs]
  | cons a F ih =>
    have ha : a.player.isSome := hF a (by simp)
    have hn : a.player.isNone = false := by
      cases hp : a.player with
      | none => rw [hp] at ha; simp at ha
      | some v => simp [hp]
    simp [firstEmptyIdx, hn, ih (fun x hx => hF x (by simp [hx]))]

lemma firstEmptyIdx_eq_none (l : List Slot) (h : ∀ x ∈ l, x.player.isSome) :
    firstEmptyIdx l = none := by
  induction l with
  | nil => rfl
  | cons a l ih =>
    have ha : a.player.isSome := h a (by simp)
    have hn : a.player.isNone = false := by
      cases hp : a.player with
      | none => rw [hp] at ha; simp at ha
      | some v => simp [hp]
    simp [firstEmptyIdx, hn, ih (fun x hx => h x (by simp [hx]))]

lemma modifyAt_append (f : Slot → Slot) (F : List Slot) (s : Slot) (E : List Slot) :
    modifyAt f F.length (F ++ s :: E) = F ++ f s :: E := by
  induction F with
  | nil => rfl
  | cons a F ih => simp [modifyAt, ih]

lemma modifyAt_getElem_ne (f : Slot → Slot) : ∀ (l : List Slot) (i j : Nat), j ≠ i →
    (modifyAt f i l)[j]? = l[j]? := by
  intro l
  induction l with
  | nil => intro i j _; cases i <;> rfl
  | cons a l ih =>
    intro i j h
    cases i with
    | zero =>
      cases j with
      | zero => exact absurd rfl h
      | succ m => simp [modifyAt]
    | succ n =>
      cases j with
      | zero => simp [modifyAt]
      | succ m =>
        simp only [modifyAt, List.getElem?_cons_succ]
        exact ih n m (fun hc => h (by rw [hc]))

lemma exists_empty_decomp : ∀ (l : List Slot), (∃ s ∈ l, s.player = none) →
    ∃ F s E, l = F ++ s :: E ∧ (∀ x ∈ F, x.player.isSome) ∧ s.player = none := by
  intro l
  induction l with
  | nil => rintro ⟨s, hs, _⟩; simp at hs
  | cons a l ih =>
    intro hex
    cases hp : a.player with
    | none => exact ⟨[], a, l, rfl, by simp, hp⟩
    | some v =>
      obtain ⟨s, hs, hsp⟩ := hex
      rcases List.mem_cons.mp hs with h | h
      · subst h; rw [hp] at hsp; cases hsp
      · obtain ⟨F, s2, E, hl, hF, hs2⟩ := ih ⟨s, h, hsp⟩
        refine ⟨a :: F, s2, E, by simp [hl], ?_, hs2⟩
        intro x hx
        rcases List.mem_cons.mp hx with rfl | hx2
        · simp [hp]
        · exact hF x hx2

lemma getElem_append_left {α : Type} : ∀ (F G : List α) (i : Nat), i < F.length →
    (F ++ G)[i]? = F[i]? := by
  intro F
  induction F with
  | nil => intro G i h; simp at h
  | cons a F ih =>
    intro G i h
    cases i with
    | zero => simp
    | succ n =>
      simp only [List.cons_append, List.getElem?_cons_succ]
      exact ih G n (by simpa using h)

lemma getElem_append_mid {α : Type} : ∀ (F : List α) (s : α) (G : List α),
    (F ++ s :: G)[F.length]? = some s := by
  intro F
  induction F with
  | nil => intro s G; simp
  | cons a F ih => intro s G; simpa using ih s G

lemma mem_of_getElem {α : Type} : ∀ (l : List α) (j : Nat) (x : α), l[j]? = some x → x ∈ l := by
  intro l
  induction l with
  | nil => intro j x h; simp at h
  | cons a l ih =>
    intro j x h
    cases j with
    | zero =>
      simp only [List.getElem?_cons_zero, Option.some.injEq] at h
      subst h; exact List.mem_cons_self a l
    | succ n => exact List.mem_cons_of_mem a (ih n x (by simpa using h))

/-- The registry after one elimination of `player`: the history gains the
"Bounty Claimed" entry exactly when the player carried a bounty
(core.py:185-191); a proof-side abbreviation of the step result. -/
def postRegistry (st : SysState) (nm player eb : String) (td : TournamentData) :
    List (String × TournamentData) :=
  if player ∈ td.bounties then
    updateAssoc st.registry nm
      { td with history := td.history ++
          [{ action := "Bounty Claimed", details := bountyDetails eb player }] }
  else st.registry

/-- The tournament record after one elimination of `player`. -/
def postTd (td : TournamentData) (player eb : String) : TournamentData :=
  if player ∈ td.bounties then
    { td with history := td.history ++
        [{ action := "Bounty Claimed", details := bountyDetails eb player }] }
  else td

/-- The column list after the "Bounty Points" cell write (core.py:183):
pandas appends the new column at the end the first time. -/
def postColumns (cols : List String) : List String :=
  if cols.contains "Bounty Points" then cols else cols ++ ["Bounty Points"]

lemma lookup_postRegistry (st : SysState) (nm player eb : String) (td : TournamentData)
    (htd : lookupAssoc st.registry nm = some td) :
    lookupAssoc (postRegistry st nm player eb td) nm = some (postTd td player eb) := by
  by_cases hb : player ∈ td.bounties
  · simp [postRegistry, postTd, hb, lookupAssoc_updateAssoc_self]
  · simp [postRegistry, postTd, hb, htd]

/-- The one successful elimination step, fully evaluated: the ledger's
first empty row (after the already-filled prefix F) is filled, the
"Bounty Points" column is appended if new, and on a bounty claim the
tournament's history gains the "Bounty Claimed" entry. -/
lemma update_elim_step (st : SysState) (nm player et eb : String) (td : TournamentData)
    (cols : List String) (F : List Slot) (s : Slot) (E : List Slot)
    (htd : lookupAssoc st.registry nm = some td)
    (hled : lookupAssoc st.ledgers nm = some { columns := cols, rows := F ++ s :: E })
    (hF : ∀ x ∈ F, x.player.isSome) (hs : s.player = none) :
    update_tournament_elimination st nm player et eb = Except.ok
      { registry := postRegistry st nm player eb td,
        ledgers := updateAssoc st.ledgers nm
          { columns := postColumns cols,
            rows := F ++ filledSlot player et eb
              (if player ∈ td.bounties then 1 else 0) s :: E } } := by
  by_cases hb : player ∈ td.bounties
  · simp [update_tournament_elimination, htd, hled,
      firstEmptyIdx_append F s E hF hs, modifyAt_append, hb,
      update_tournament_history, postRegistry, postColumns]
  · simp [update_tournament_elimination, htd, hled,
      firstEmptyIdx_append F s E hF hs, modifyAt_append, hb,
      postRegistry, postColumns]

/-! ### Concrete states used by the witnesses -/

def tdW3 : TournamentData :=
  { name := "T", num_players := 2, participants := ["A", "B"], bounties := ["B"],
    stack_size := 100, comment := "", earnings := [], history := [] }

def stW3 : SysState :=
  { registry := [("T", tdW3)], ledgers := [("T", create_tournament_excel 2)] }

def elimsW3 : List Elim :=
  [{ player := "B", time := "20:00", eliminated_by := "A" },
   { player := "A", time := "20:10", eliminated_by := "A" }]

/-! ### Claim C1 -/

/-- Claim C1: when the tournament exists, its ledger file exists and has
at least one unfilled slot, update_tournament_elimination assigns the
elimination to the first unfilled slot in ascending storage order (the
lowest-index row whose Player field is empty: every row before it is
already filled), writing player, elimination time and eliminator into
that slot, and never changes the pre-assigned rank value of any slot. -/
theorem elimination_uses_first_unfilled_slot (st : SysState)
    (nm player et eb : String) (td : TournamentData) (led : Ledger)
    (htd : lookupAssoc st.registry nm = some td)
    (hled : lookupAssoc st.ledgers nm = some led)
    (hempty : ∃ s ∈ led.rows, s.player = none) :
    ∃ (st2 : SysState) (led2 : Ledger) (idx : Nat) (s : Slot),
      update_tournament_elimination st nm player et eb = Except.ok st2 ∧
      lookupAssoc st2.ledgers nm = some led2 ∧
      led.rows[idx]? = some s ∧ s.player = none ∧
      (∀ j, j < idx → ∀ x : Slot, led.rows[j]? = some x → x.player ≠ none) ∧
      led2.rows[idx]? = some (filledSlot player et eb
        (if player ∈ td.bounties then 1 else 0) s) ∧
      led2.rows.map Slot.rank = led.rows.map Slot.rank := by
  obtain ⟨cols, rows⟩ := led
  obtain ⟨F, s, E, hrows, hF, hs⟩ := exists_empty_decomp rows hempty
  subst hrows
  have hstep := update_elim_step st nm player et eb td cols F s E htd hled hF hs
  refine ⟨_, _, F.length, s, hstep, lookupAssoc_updateAssoc_self _ _ _, ?_, hs, ?_, ?_, ?_⟩
  · exact getElem_append_mid F s E
  · intro j hj x hx
    rw [getElem_append_left F (s :: E) j hj] at hx
    have hsome := hF x (mem_of_getElem F j x hx)
    intro hnone
    rw [hnone] at hsome
    simp at hsome
  · simpa using getElem_append_mid F
      (filledSlot player et eb (if player ∈ td.bounties then 1 else 0) s) E
  · simp [filledSlot]

theorem elimination_uses_first_unfilled_slot_witness :
    (∃ s ∈ (create_tournament_excel 2).rows, s.player = none) ∧
    (∃ (st2 : SysState) (led2 : Ledger) (idx : Nat) (s : Slot),
      update_tournament_elimination stW3 "T" "B" "20:00" "A" = Except.ok st2 ∧
      lookupAssoc st2.ledgers "T" = some led2 ∧
      (create_tournament_excel 2).rows[idx]? = some s ∧ s.player = none ∧
      (∀ j, j < idx → ∀ x : Slot, (create_tournament_excel 2).rows[j]? = some x →
        x.player ≠ none) ∧
      led2.rows[idx]? = some (filledSlot "B" "20:00" "A"
        (if "B" ∈ tdW3.bounties then 1 else 0) s) ∧
      led2.rows.map Slot.rank = (create_tournament_excel 2).rows.map Slot.rank) :=
  ⟨by decide, elimination_uses_first_unfilled_slot stW3 "T" "B" "20:00" "A" tdW3
    (create_tournament_excel 2) rfl rfl (by decide)⟩

/-! ### Claim C2 -/

/-- Claim C2: on every successful elimination, if the eliminated player is
in the tournament's bounties list the filled slot's bounty points are 1
and a "Bounty Claimed" audit entry naming the eliminator is appended to
the tournament's history; otherwise the bounty points are 0 and the
history (hence no BountyClaimed entry) is unchanged. -/
theorem elimination_bounty_points_and_history (st : SysState)
    (nm player et eb : String) (td : TournamentData) (led : Ledger)
    (htd : lookupAssoc st.registry nm = some td)
    (hled : lookupAssoc st.ledgers nm = some led)
    (hempty : ∃ s ∈ led.rows, s.player = none) :
    ∃ (st2 : SysState) (led2 : Ledger) (idx : Nat) (s2 : Slot),
      update_tournament_elimination st nm player et eb = Except.ok st2 ∧
      lookupAssoc st2.ledgers nm = some led2 ∧
      led2.rows[idx]? = some s2 ∧ s2.player = some player ∧
      (player ∈ td.bounties →
        s2.bountyPoints = some 1 ∧
        lookupAssoc st2.registry nm =
          some { td with history := td.history ++
            [{ action := "Bounty Claimed", details := bountyDetails eb player }] }) ∧
      (player ∉ td.bounties →
        s2.bountyPoints = some 0 ∧ lookupAssoc st2.registry nm = some td) := by
  obtain ⟨cols, rows⟩ := led
  obtain ⟨F, s, E, hrows, hF, hs⟩ := exists_empty_decomp rows hempty
  subst hrows
  have hstep := update_elim_step st nm player et eb td cols F s E htd hled hF hs
  refine ⟨_, _, F.length,
    filledSlot player et eb (if player ∈ td.bounties then 1 else 0) s,
    hstep, lookupAssoc_updateAssoc_self _ _ _, ?_, by simp [filledSlot], ?_, ?_⟩
  · simpa using getElem_append_mid F
      (filledSlot player et eb (if player ∈ td.bounties then 1 else 0) s) E
  · intro hb
    refine ⟨by simp [filledSlot, hb], ?_⟩
    simp [postRegistry, hb, lookupAssoc_updateAssoc_self]
  · intro hb
    refine ⟨by simp [filledSlot, hb], ?_⟩
    simp [postRegistry, hb, htd]

theorem elimination_bounty_points_and_history_witness :
    (∃ s ∈ (create_tournament_excel 2).rows, s.player = none) ∧
    (∃ (st2 : SysState) (led2 : Ledger) (idx : Nat) (s2 : Slot),
      update_tournament_elimination stW3 "T" "B" "20:00" "A" = Except.ok st2 ∧
      lookupAssoc st2.ledgers "T" = some led2 ∧
      led2.rows[idx]? = some s2 ∧ s2.player = some "B" ∧
      ("B" ∈ tdW3.bounties →
        s2.bountyPoints = some 1 ∧
        lookupAssoc st2.registry "T" =
          some { tdW3 with history := tdW3.history ++
            [{ action := "Bounty Claimed", details := bountyDetails "A" "B" }] }) ∧
      ("B" ∉ tdW3.bounties →
        s2.bountyPoints = some 0 ∧ lookupAssoc st2.registry "T" = some tdW3)) :=
  ⟨by decide, elimination_bounty_points_and_history stW3 "T" "B" "20:00" "A" tdW3
    (create_tournament_excel 2) rfl rfl (by decide)⟩

/-! ### Claim C10 -/

/-- Claim C10 (frame effect): on every successful elimination only the
row being filled changes in the persisted ledger: the row count is
unchanged, every other row (in particular every previously filled slot)
keeps all its values, the entire Rank column is unchanged, and every
other tournament's ledger file is untouched. -/
theorem elimination_frame_effect (st : SysState) (nm player et eb : String)
    (td : TournamentData) (led : Ledger)
    (htd : lookupAssoc st.registry nm = some td)
    (hled : lookupAssoc st.ledgers nm = some led)
    (hempty : ∃ s ∈ led.rows, s.player = none) :
    ∃ (st2 : SysState) (led2 : Ledger) (idx : Nat) (s : Slot),
      update_tournament_elimination st nm player et eb = Except.ok st2 ∧
      lookupAssoc st2.ledgers nm = some led2 ∧
      led.rows[idx]? = some s ∧
      led2.rows.length = led.rows.length ∧
      (∀ j, j ≠ idx → led2.rows[j]? = led.rows[j]?) ∧
      led2.rows[idx]? = some (filledSlot player et eb
        (if player ∈ td.bounties then 1 else 0) s) ∧
      led2.rows.map Slot.rank = led.rows.map Slot.rank ∧
      (∀ nm2, nm2 ≠ nm → lookupAssoc st2.ledgers nm2 = lookupAssoc st.ledgers nm2) := by
  obtain ⟨cols, rows⟩ := led
  obtain ⟨F, s, E, hrows, hF, hs⟩ := exists_empty_decomp rows hempty
  subst hrows
  have hstep := update_elim_step st nm player et eb td cols F s E htd hled hF hs
  refine ⟨_, _, F.length, s, hstep, lookupAssoc_updateAssoc_self _ _ _, ?_, ?_, ?_, ?_, ?_, ?_⟩
  · exact getElem_append_mid F s E
  · simp
  · intro j hj
    have hmod := modifyAt_getElem_ne
      (filledSlot player et eb (if player ∈ td.bounties then 1 else 0))
      (F ++ s :: E) F.length j hj
    rw [modifyAt_append] at hmod
    simpa using hmod
  · simpa using getElem_append_mid F
      (filledSlot player et eb (if player ∈ td.bounties then 1 else 0) s) E
  · simp [filledSlot]
  · intro nm2 hne
    exact lookupAssoc_updateAssoc_ne st.ledgers nm nm2 _ hne

theorem elimination_frame_effect_witness :
    (∃ s ∈ (create_tournament_excel 2).rows, s.player = none) ∧
    (∃ (st2 : SysState) (led2 : Ledger) (idx : Nat) (s : Slot),
      update_tournament_elimination stW3 "T" "B" "20:00" "A" = Except.ok st2 ∧
      lookupAssoc st2.ledgers "T" = some led2 ∧
      (create_tournament_excel 2).rows[idx]? = some s ∧
      led2.rows.length = (create_tournament_excel 2).rows.length ∧
      (∀ j, j ≠ idx → led2.rows[j]? = (create_tournament_excel 2).rows[j]?) ∧
      led2.rows[idx]? = some (filledSlot "B" "20:00" "A"
        (if "B" ∈ tdW3.bounties then 1 else 0) s) ∧
      led2.rows.map Slot.rank = (create_tournament_excel 2).rows.map Slot.rank ∧
      (∀ nm2, nm2 ≠ "T" →
        lookupAssoc st2.ledgers nm2 = lookupAssoc stW3.ledgers nm2)) :=
  ⟨by decide, elimination_frame_effect stW3 "T" "B" "20:00" "A" tdW3
    (create_tournament_excel 2) rfl rfl (by decide)⟩

/-! ### Claim C4 -/

def tdC4 : TournamentData :=
  { name := "T", num_players := 2, participants := ["A", "B"], bounties := [],
    stack_size := 100, comment := "", earnings := [], history := [] }

def ledC4 : Ledger :=
  { columns := ["Rank", "Player", "Elimination Time", "Eliminated By",
      "Bounty Claimed From", "Bounty Points"],
    rows := [⟨2, some "A", some "20:00", some "B", some 0⟩,
      ⟨1, none, none, none, none⟩] }

def ledC4out : Ledger :=
  { columns := ledC4.columns,
    rows := [⟨2, some "A", some "20:00", some "B", some 0⟩,
      ⟨1, some "A", some "20:30", some "B", some 0⟩] }

def stC4 : SysState := { registry := [("T", tdC4)], ledgers := [("T", ledC4)] }

/-- Claim C4 counterexample: player "A" is already recorded in a filled
slot, yet eliminating "A" again succeeds (no AlreadyEliminatedError is
raised: update_tournament_elimination performs no participant or
double-elimination check) and the ledger changes, now holding "A" in two
slots; likewise no UnknownPlayerError exists anywhere in the code. -/
theorem elimination_accepts_already_eliminated :
    update_tournament_elimination stC4 "T" "A" "20:30" "B" =
      Except.ok { registry := stC4.registry, ledgers := [("T", ledC4out)] } ∧
    ledC4out ≠ ledC4 :=
  ⟨rfl, by decide⟩

/-- Claim C4 (amended): update_tournament_elimination does not validate
the eliminated player at all: for every player string (a non-participant
or an already-eliminated player included), whenever the tournament and
its ledger exist and an unfilled slot remains, the call succeeds and
writes that player into the first unfilled slot. The participant and
not-yet-eliminated restrictions are enforced only by the app.py form,
which limits the dropdown to remaining players. -/
theorem elimination_no_player_validation (st : SysState) (nm player et eb : String)
    (td : TournamentData) (led : Ledger)
    (htd : lookupAssoc st.registry nm = some td)
    (hled : lookupAssoc st.ledgers nm = some led)
    (hempty : ∃ s ∈ led.rows, s.player = none) :
    ∃ (st2 : SysState) (led2 : Ledger) (idx : Nat) (s : Slot),
      update_tournament_elimination st nm player et eb = Except.ok st2 ∧
      lookupAssoc st2.ledgers nm = some led2 ∧
      led.rows[idx]? = some s ∧ s.player = none ∧
      led2.rows[idx]? = some (filledSlot player et eb
        (if player ∈ td.bounties then 1 else 0) s) := by
  obtain ⟨cols, rows⟩ := led
  obtain ⟨F, s, E, hrows, hF, hs⟩ := exists_empty_decomp rows hempty
  subst hrows
  have hstep := update_elim_step st nm player et eb td cols F s E htd hled hF hs
  refine ⟨_, _, F.length, s, hstep, lookupAssoc_updateAssoc_self _ _ _, ?_, hs, ?_⟩
  · exact getElem_append_mid F s E
  · simpa using getElem_append_mid F
      (filledSlot player et eb (if player ∈ td.bounties then 1 else 0) s) E

theorem elimination_no_player_validation_witness :
    (∃ s ∈ ledC4.rows, s.player = none) ∧
    (∃ (st2 : SysState) (led2 : Ledger) (idx : Nat) (s : Slot),
      update_tournament_elimination stC4 "T" "Z" "20:30" "B" = Except.ok st2 ∧
      lookupAssoc st2.ledgers "T" = some led2 ∧
      ledC4.rows[idx]? = some s ∧ s.player = none ∧
      led2.rows[idx]? = some (filledSlot "Z" "20:30" "B"
        (if "Z" ∈ tdC4.bounties then 1 else 0) s)) :=
  ⟨by decide, elimination_no_player_validation stC4 "T" "Z" "20:30" "B" tdC4 ledC4
    rfl rfl (by decide)⟩

/-! ### Claim C8 (amended) -/

/-- Claim C8 (amended): the per-tournament ledger is created with exactly
the columns Rank, Player, Elimination Time, Eliminated By, Bounty Claimed
From (not Bounty Points); every successful elimination then leaves the
column list unchanged if it already contains "Bounty Points" and appends
"Bounty Points" at the end otherwise, so after the first elimination the
ledger has the six columns Rank, Player, Elimination Time, Eliminated By,
Bounty Claimed From, Bounty Points. -/
theorem ledger_columns_spec (N : Nat) (st : SysState) (nm player et eb : String)
    (td : TournamentData) (led : Ledger)
    (htd : lookupAssoc st.registry nm = some td)
    (hled : lookupAssoc st.ledgers nm = some led)
    (hempty : ∃ s ∈ led.rows, s.player = none) :
    (create_tournament_excel N).columns =
      ["Rank", "Player", "Elimination Time", "Eliminated By", "Bounty Claimed From"] ∧
    ∃ (st2 : SysState) (led2 : Ledger),
      update_tournament_elimination st nm player et eb = Except.ok st2 ∧
      lookupAssoc st2.ledgers nm = some led2 ∧
      led2.columns = (if led.columns.contains "Bounty Points" then led.columns
        else led.columns ++ ["Bounty Points"]) := by
  refine ⟨rfl, ?_⟩
  obtain ⟨cols, rows⟩ := led
  obtain ⟨F, s, E, hrows, hF, hs⟩ := exists_empty_decomp rows hempty
  subst hrows
  have hstep := update_elim_step st nm player et eb td cols F s E htd hled hF hs
  exact ⟨_, _, hstep, lookupAssoc_updateAssoc_self _ _ _, rfl⟩

theorem ledger_columns_spec_witness :
    (∃ s ∈ (create_tournament_excel 2).rows, s.player = none) ∧
    ((create_tournament_excel 2).columns =
      ["Rank", "Player", "Elimination Time", "Eliminated By", "Bounty Claimed From"] ∧
    ∃ (st2 : SysState) (led2 : Ledger),
      update_tournament_elimination stW3 "T" "B" "20:00" "A" = Except.ok st2 ∧
      lookupAssoc st2.ledgers "T" = some led2 ∧
      led2.columns = (if (create_tournament_excel 2).columns.contains "Bounty Points"
        then (create_tournament_excel 2).columns
        else (create_tournament_excel 2).columns ++ ["Bounty Points"])) :=
  ⟨by decide, ledger_columns_spec 2 stW3 "T" "B" "20:00" "A" tdW3
    (create_tournament_excel 2) rfl rfl (by decide)⟩

/-! ### Claim C3 -/

/-- Running a list of eliminations against a ledger whose rows are a
filled prefix F followed by empty rows E, one elimination per empty row:
every call succeeds, each elimination lands in the next empty row in
order, and at the end every row of the ledger is filled. -/
lemma recordElims_fill (elims : List Elim) :
    ∀ (st : SysState) (nm : String) (td : TournamentData) (cols : List String)
      (F E : List Slot),
      lookupAssoc st.registry nm = some td →
      lookupAssoc st.ledgers nm = some { columns := cols, rows := F ++ E } →
      (∀ x ∈ F, x.player.isSome) → (∀ x ∈ E, x.player = none) →
      E.length = elims.length →
      ∃ (st2 : SysState) (td2 : TournamentData) (cols2 : List String) (G : List Slot),
        recordElims st nm elims = Except.ok st2 ∧
        lookupAssoc st2.registry nm = some td2 ∧
        lookupAssoc st2.ledgers nm = some { columns := cols2, rows := F ++ G } ∧
        G.map Slot.player = elims.map (fun e => some e.player) ∧
        (∀ x ∈ G, x.player.isSome) := by
  induction elims with
  | nil =>
    intro st nm td cols F E htd hled hF hE hlen
    have hE0 : E = [] := List.length_eq_zero.mp (by simpa using hlen)
    subst hE0
    exact ⟨st, td, cols, [], rfl, htd, hled, rfl, by simp⟩
  | cons e rest ih =>
    intro st nm td cols F E htd hled hF hE hlen
    cases E with
    | nil => simp at hlen
    | cons s E2 =>
      have hs : s.player = none := hE s (by simp)
      have hstep := update_elim_step st nm e.player e.time e.eliminated_by td cols F s E2
        htd hled hF hs
      set fl := filledSlot e.player e.time e.eliminated_by
        (if e.player ∈ td.bounties then 1 else 0) s with hfl
      have hled1 : lookupAssoc (updateAssoc st.ledgers nm
          { columns := postColumns cols, rows := F ++ fl :: E2 }) nm
          = some { columns := postColumns cols, rows := (F ++ [fl]) ++ E2 } := by
        rw [lookupAssoc_updateAssoc_self]
        simp
      have hF1 : ∀ x ∈ F ++ [fl], x.player.isSome := by
        intro x hx
        rcases List.mem_append.mp hx with hx2 | hx2
        · exact hF x hx2
        · simp only [List.mem_singleton] at hx2
          subst hx2
          simp [hfl, filledSlot]
      have hE1 : ∀ x ∈ E2, x.player = none := fun x hx => hE x (List.mem_cons_of_mem s hx)
      have hlen1 : E2.length = rest.length := by simpa using hlen
      obtain ⟨st2, td2, cols2, G, h1, h2, h3, h4, h5⟩ :=
        ih { registry := postRegistry st nm e.player e.eliminated_by td,
             ledgers := updateAssoc st.ledgers nm
               { columns := postColumns cols, rows := F ++ fl :: E2 } }
          nm (postTd td e.player e.eliminated_by) (postColumns cols) (F ++ [fl]) E2
          (lookup_postRegistry st nm e.player e.eliminated_by td htd)
          hled1 hF1 hE1 hlen1
      refine ⟨st2, td2, cols2, fl :: G, ?_, h2, ?_, ?_, ?_⟩
      · simp only [recordElims, hstep]
        exact h1
      · rw [h3]
        simp
      · simp [hfl, filledSlot, h4]
      · intro x hx
        rcases List.mem_cons.mp hx with rfl | hx2
        · simp [hfl, filledSlot]
        · exact h5 x hx2

/-- Claim C3: against a freshly initialized N-slot ledger, recording N
eliminations (of N distinct players) fills every slot exactly once, slot
i receiving the i-th eliminated player, and any subsequent elimination
attempt fails with LedgerFullError, which is raised before any write so
the ledger is not touched. -/
theorem n_eliminations_fill_ledger_then_full (st : SysState) (nm : String)
    (td : TournamentData) (N : Nat) (elims : List Elim)
    (htd : lookupAssoc st.registry nm = some td)
    (hled : lookupAssoc st.ledgers nm = some (create_tournament_excel N))
    (hlen : elims.length = N)
    (hdistinct : (elims.map Elim.player).Nodup) :
    ∃ (st2 : SysState) (led2 : Ledger),
      recordElims st nm elims = Except.ok st2 ∧
      lookupAssoc st2.ledgers nm = some led2 ∧
      led2.rows.length = N ∧
      led2.rows.map Slot.player = elims.map (fun e => some e.player) ∧
      (∀ x ∈ led2.rows, x.player.isSome) ∧
      (∀ p et eb, update_tournament_elimination st2 nm p et eb =
        Except.error Err.ledgerFullError) := by
  have hrows_none : ∀ x ∈ (create_tournament_excel N).rows, x.player = none := by
    intro x hx
    simp only [create_tournament_excel, List.mem_map, List.mem_range] at hx
    obtain ⟨i, _, rfl⟩ := hx
    rfl
  have hrows_len : (create_tournament_excel N).rows.length = N := by
    simp [create_tournament_excel]
  have hled2 : lookupAssoc st.ledgers nm =
      some { columns := initLedgerColumns, rows := [] ++ (create_tournament_excel N).rows } := by
    simpa [create_tournament_excel] using hled
  obtain ⟨st2, td2, cols2, G, h1, h2, h3, h4, h5⟩ :=
    recordElims_fill elims st nm td initLedgerColumns [] (create_tournament_excel N).rows
      htd hled2 (by simp) hrows_none (by rw [hrows_len, hlen])
  have h3b : lookupAssoc st2.ledgers nm = some { columns := cols2, rows := G } := by
    simpa using h3
  refine ⟨st2, { columns := cols2, rows := G }, h1, h3b, ?_, h4, h5, ?_⟩
  · have hG : G.length = elims.length := by
      have := congrArg List.length h4
      simpa using this
    rw [hG, hlen]
  · intro p et eb
    have hfull : firstEmptyIdx G = none := firstEmptyIdx_eq_none G h5
    simp [update_tournament_elimination, h2, h3b, hfull]

theorem n_eliminations_fill_ledger_then_full_witness :
    ∃ (st2 : SysState) (led2 : Ledger),
      recordElims stW3 "T" elimsW3 = Except.ok st2 ∧
      lookupAssoc st2.ledgers "T" = some led2 ∧
      led2.rows.length = 2 ∧
      led2.rows.map Slot.player = elimsW3.map (fun e => some e.player) ∧
      (∀ x ∈ led2.rows, x.player.isSome) ∧
      (∀ p et eb, update_tournament_elimination st2 "T" p et eb =
        Except.error Err.ledgerFullError) :=
  n_eliminations_fill_ledger_then_full stW3 "T" tdW3 2 elimsW3 rfl rfl rfl (by decide)

/-! ### Claim C8 counterexample -/

/-- Claim C8 counterexample: the ledger created at initialization does not
have the claimed column set Rank, Player, Elimination Time, Eliminated By,
Bounty Points: its fifth column is "Bounty Claimed From". -/
theorem init_ledger_columns_not_claimed_set :
    (create_tournament_excel 2).columns ≠
      ["Rank", "Player", "Elimination Time", "Eliminated By", "Bounty Points"] := by
  decide

/-! ### Ranking reconciliation (app.py format_tournament_data) -/

/-- One cell of the general-ranking table. Python ints and floats are kept
apart because format_tournament_data turns integer-valued floats into
ints; the exact value of a float is modelled as a rational. -/
inductive Value where
  | int (n : ℤ)
  | float (q : ℚ)
  | str (s : String)
  deriving DecidableEq, Repr

/-- The general-ranking DataFrame: column names plus rows of cells, cell
access by column position. -/
structure DF where
  columns : List String
  rows : List (List Value)
  deriving DecidableEq, Repr

/-- The keys of columns_mapping (app.py:69-77), in order. -/
def requiredColumns : List String :=
  ["Classement", "Joueurs", "Pts Classement", "Bonus Kills", "Total des Pts",
   "Moyenne", "Nb de Kill"]

/-- numeric_columns (app.py:86). -/
def numericColumns : List String :=
  ["Pts Classement", "Bonus Kills", "Total des Pts", "Nb de Kill"]

/-- Position of a column name in a column list (first occurrence). -/
def colIndex : List String → String → Option Nat
  | [], _ => none
  | c2 :: rest, c => if c2 = c then some 0 else (colIndex rest c).map (fun i => i + 1)

/-- Python round(x, dec) on the exact value n/d, computed on integers:
round-half-to-even of x * 10 ^ dec, where fdiv is floor division. -/
def roundHalfEvenInt (n d : ℤ) : ℤ :=
  if 2 * (n - n.fdiv d * d) < d then n.fdiv d
  else if d < 2 * (n - n.fdiv d * d) then n.fdiv d + 1
  else if n.fdiv d % 2 = 0 then n.fdiv d else n.fdiv d + 1

/-- round(x, dec) as a rational: the scaled value x * 10 ^ dec is rounded
half-to-even to an integer and divided back. -/
def pyRound (x : ℚ) (dec : Nat) : ℚ :=
  Rat.divInt (roundHalfEvenInt (x.num * ((10 : ℤ) ^ dec)) (x.den : ℤ)) ((10 : ℤ) ^ dec)

/-- The per-cell lambda of app.py:89: int(x) if x == int(x) else
round(x, 1). A float is integer-valued exactly when its reduced
denominator is 1, and int(x) is then its numerator; applying int() to a
non-numeric cell raises (TypeError). -/
def pyNormalize : Value → Except Err Value
  | Value.int n => Except.ok (Value.int n)
  | Value.float q =>
      Except.ok (if q.den = 1 then Value.int q.num else Value.float (pyRound q 1))
  | Value.str _ => Except.error Err.typeError

/-- df['Moyenne'].round(2) (app.py:93): floats are rounded to 2 decimals,
ints stay ints, non-numeric cells raise. -/
def moyenneRound : Value → Except Err Value
  | Value.int n => Except.ok (Value.int n)
  | Value.float q => Except.ok (Value.float (pyRound q 2))
  | Value.str _ => Except.error Err.typeError

/-- Error-propagating map, the effect of applying a fallible operation to
every row / cell of a DataFrame. -/
def mapE {α β : Type} (f : α → Except Err β) : List α → Except Err (List β)
  | [] => Except.ok []
  | a :: rest =>
    match f a with
    | Except.error e => Except.error e
    | Except.ok b =>
      match mapE f rest with
      | Except.error e => Except.error e
      | Except.ok bs => Except.ok (b :: bs)

/-- One cell of df[list(columns_mapping.keys())]: the value in row r of
the column named c. -/
def selectCell (cols : List String) (r : List Value) (c : String) : Except Err Value :=
  match colIndex cols c with
  | none => Except.error Err.missingColumnError
  | some i =>
    match r[i]? with
    | some v => Except.ok v
    | none => Except.error Err.typeError

/-- One row of df[list(columns_mapping.keys())]: the seven canonical
columns selected in canonical order. -/
def selectRow (cols : List String) (r : List Value) : Except Err (List Value) :=
  mapE (selectCell cols r) requiredColumns

/-- The numeric formatting of app.py:86-93 on one (column, cell) pair of
an already-selected row. -/
def normalizeCell (cv : String × Value) : Except Err Value :=
  if cv.1 ∈ numericColumns then pyNormalize cv.2
  else if cv.1 = "Moyenne" then moyenneRound cv.2
  else Except.ok cv.2

def normalizeRow (r : List Value) : Except Err (List Value) :=
  mapE normalizeCell (requiredColumns.zip r)

/-- format_tournament_data (app.py:63-107): None passes through; the seven
canonical columns are selected and reordered (pandas raises KeyError when
one is absent from df.columns, the spec's MissingColumnError), then the
numeric columns and Moyenne are normalized. The final .style styling of
app.py:96-107 is display-only and not part of the data. -/
def format_tournament_data (odf : Option DF) : Except Err (Option DF) :=
  match odf with
  | none => Except.ok none
  | some df =>
    if requiredColumns.all (fun c => df.columns.contains c) then
      match mapE (selectRow df.columns) df.rows with
      | Except.error e => Except.error e
      | Except.ok sel =>
        match mapE normalizeRow sel with
        | Except.error e => Except.error e
        | Except.ok rows2 => Except.ok (some { columns := requiredColumns, rows := rows2 })
    else Except.error Err.missingColumnError

/-! ### Rounding lemmas -/

lemma roundHalfEvenInt_bound (n d : ℤ) (hd : 0 < d) :
    |((roundHalfEvenInt n d : ℤ) : ℚ) - Rat.divInt n d| ≤ 1 / 2 := by
  have hdQ : (0 : ℚ) < (d : ℚ) := by exact_mod_cast hd
  have hq : Rat.divInt n d = (n : ℚ) / (d : ℚ) := Rat.divInt_eq_div n d
  have hfe : n.fdiv d = n / d := Int.fdiv_eq_ediv n (le_of_lt hd)
  have hr0 : 0 ≤ n - n.fdiv d * d := by
    have h1 := Int.emod_nonneg n (ne_of_gt hd)
    rw [Int.emod_def] at h1
    rw [hfe]
    linarith
  have hr1 : n - n.fdiv d * d < d := by
    have h1 := Int.emod_lt_of_pos n hd
    rw [Int.emod_def] at h1
    rw [hfe]
    linarith
  have hkey : (n : ℚ) / (d : ℚ) = ((n.fdiv d : ℤ) : ℚ)
      + ((n - n.fdiv d * d : ℤ) : ℚ) / (d : ℚ) := by
    field_simp
  rw [hq, hkey]
  set f : ℤ := n.fdiv d with hfdef
  set r : ℤ := n - f * d with hrdef
  have hr0Q : (0 : ℚ) ≤ (r : ℚ) := by exact_mod_cast hr0
  have hr1Q : (r : ℚ) < (d : ℚ) := by exact_mod_cast hr1
  unfold roundHalfEvenInt
  rw [← hfdef, ← hrdef]
  by_cases h1 : 2 * r < d
  · rw [if_pos h1]
    have hrd : (r : ℚ) / (d : ℚ) < 1 / 2 := by
      rw [div_lt_iff₀ hdQ]
      have : 2 * (r : ℚ) < (d : ℚ) := by exact_mod_cast h1
      linarith
    have hrd0 : (0 : ℚ) ≤ (r : ℚ) / (d : ℚ) := div_nonneg hr0Q (le_of_lt hdQ)
    rw [abs_le]
    constructor <;> linarith
  · rw [if_neg h1]
    by_cases h2 : d < 2 * r
    · rw [if_pos h2]
      have hrd : (1 : ℚ) / 2 < (r : ℚ) / (d : ℚ) := by
        rw [lt_div_iff₀ hdQ]
        have : (d : ℚ) < 2 * (r : ℚ) := by exact_mod_cast h2
        linarith
      have hrd1 : (r : ℚ) / (d : ℚ) < 1 := by
        rw [div_lt_one hdQ]
        exact hr1Q
      rw [abs_le]
      constructor <;> push_cast <;> linarith
    · rw [if_neg h2]
      have heq : 2 * r = d := by omega
      have hrd : (r : ℚ) / (d : ℚ) = 1 / 2 := by
        have heqQ : 2 * (r : ℚ) = (d : ℚ) := by exact_mod_cast heq
        rw [div_eq_div_iff (ne_of_gt hdQ) (by norm_num : (2 : ℚ) ≠ 0)]
        linarith
      by_cases h3 : f % 2 = 0
      · rw [if_pos h3, abs_le]
        constructor <;> linarith
      · rw [if_neg h3, abs_le]
        constructor <;> push_cast <;> linarith

lemma pyRound_bound (q : ℚ) (dec : Nat) :
    |pyRound q dec - q| ≤ 1 / (2 * (10 : ℚ) ^ dec) := by
  have hP : (0 : ℚ) < (10 : ℚ) ^ dec := by positivity
  have hden : (0 : ℤ) < (q.den : ℤ) := by exact_mod_cast q.pos
  have hb := roundHalfEvenInt_bound (q.num * ((10 : ℤ) ^ dec)) (q.den : ℤ) hden
  have hdv : Rat.divInt (q.num * ((10 : ℤ) ^ dec)) (q.den : ℤ) = q * (10 : ℚ) ^ dec := by
    rw [Rat.divInt_eq_div]
    have h1 : ((q.num * ((10 : ℤ) ^ dec) : ℤ) : ℚ) = (q.num : ℚ) * (10 : ℚ) ^ dec := by
      norm_cast
    have h2 : (((q.den : ℤ)) : ℚ) = ((q.den : ℕ) : ℚ) := by norm_cast
    rw [h1, h2]
    calc (q.num : ℚ) * (10 : ℚ) ^ dec / ((q.den : ℕ) : ℚ)
        = ((q.num : ℚ) / ((q.den : ℕ) : ℚ)) * (10 : ℚ) ^ dec := by ring
      _ = q * (10 : ℚ) ^ dec := by rw [Rat.num_div_den q]
  rw [hdv] at hb
  have hpy : pyRound q dec =
      ((roundHalfEvenInt (q.num * ((10 : ℤ) ^ dec)) (q.den : ℤ) : ℤ) : ℚ) / (10 : ℚ) ^ dec := by
    unfold pyRound
    rw [Rat.divInt_eq_div]
    norm_num
  rw [hpy]
  set R : ℤ := roundHalfEvenInt (q.num * ((10 : ℤ) ^ dec)) (q.den : ℤ) with hRdef
  have key : (R : ℚ) / (10 : ℚ) ^ dec - q = ((R : ℚ) - q * (10 : ℚ) ^ dec) / (10 : ℚ) ^ dec := by
    field_simp
    ring
  rw [key, abs_div, abs_of_pos hP, div_le_div_iff₀ hP (by positivity)]
  calc |(R : ℚ) - q * (10 : ℚ) ^ dec| * (2 * (10 : ℚ) ^ dec)
      ≤ (1 / 2) * (2 * (10 : ℚ) ^ dec) := by
        apply mul_le_mul_of_nonneg_right hb
        positivity
    _ = 1 * (10 : ℚ) ^ dec := by ring

/-! ### Claim C9 -/

/-- A well-formed input table for the concrete normalization facts:
Pts Classement holds 5.0 in row one and 5.333 in row two, Moyenne holds
5.678 and 4.7. -/
def dfC9 : DF :=
  { columns := requiredColumns,
    rows := [[Value.int 1, Value.str "X", Value.float (Rat.divInt 5 1), Value.int 3,
        Value.float (Rat.divInt 141 10), Value.float (Rat.divInt 5678 1000), Value.int 2],
      [Value.int 2, Value.str "Y", Value.float (Rat.divInt 5333 1000), Value.int 0,
        Value.float (Rat.divInt 8 1), Value.float (Rat.divInt 47 10), Value.int 1]] }

/-- The output of format_tournament_data on dfC9: 5.0 became integer 5,
5.333 became 5.3, 14.1 stayed 14.1, 8.0 became integer 8, the Moyenne
values were rounded to two decimals (5.678 to 5.68, 4.7 unchanged). -/
def dfC9out : DF :=
  { columns := requiredColumns,
    rows := [[Value.int 1, Value.str "X", Value.int 5, Value.int 3,
        Value.float (Rat.divInt 141 10), Value.float (Rat.divInt 142 25), Value.int 2],
      [Value.int 2, Value.str "Y", Value.float (Rat.divInt 53 10), Value.int 0,
        Value.int 8, Value.float (Rat.divInt 47 10), Value.int 1]] }

/-- A table missing the Moyenne column. -/
def dfC9missing : DF :=
  { columns := ["Classement", "Joueurs", "Pts Classement", "Bonus Kills",
      "Total des Pts", "Nb de Kill"],
    rows := [] }

/-- Claim C9: format_tournament_data fails with MissingColumnError when
any required column is absent; when it succeeds, the output has exactly
the seven canonical columns in canonical order; an integer-valued float
such as 5.0 is normalized to integer 5 and a fractional one such as 5.333
is rounded to one decimal (5.3); Moyenne values are always rounded to two
decimals (round-half-even within 1/200 of the input), as evaluated
end-to-end on the concrete table dfC9. -/
theorem format_ranking_spec :
    (∀ df : DF, (∃ c ∈ requiredColumns, df.columns.contains c = false) →
      format_tournament_data (some df) = Except.error Err.missingColumnError) ∧
    (∀ (df out : DF), format_tournament_data (some df) = Except.ok (some out) →
      out.columns = requiredColumns) ∧
    pyNormalize (Value.float (Rat.divInt 5 1)) = Except.ok (Value.int 5) ∧
    pyNormalize (Value.float (Rat.divInt 5333 1000)) =
      Except.ok (Value.float (Rat.divInt 53 10)) ∧
    (∀ q : ℚ, moyenneRound (Value.float q) = Except.ok (Value.float (pyRound q 2)) ∧
      |pyRound q 2 - q| ≤ 1 / 200) ∧
    format_tournament_data (some dfC9) = Except.ok (some dfC9out) := by
  refine ⟨?_, ?_, by rfl, by rfl, ?_, by rfl⟩
  · intro df hex
    obtain ⟨c, hc, hfalse⟩ := hex
    have hall : (requiredColumns.all (fun x => df.columns.contains x)) = false := by
      cases hall2 : requiredColumns.all (fun x => df.columns.contains x) with
      | false => rfl
      | true =>
        have := List.all_eq_true.mp hall2 c hc
        rw [hfalse] at this
        cases this
    simp only [format_tournament_data]
    rw [hall]
    simp
  · intro df out h
    simp only [format_tournament_data] at h
    split at h
    · split at h
      · cases h
      · split at h
        · cases h
        · simp only [Except.ok.injEq, Option.some.injEq] at h
          rw [← h]
    · cases h
  · intro q
    refine ⟨rfl, ?_⟩
    have h := pyRound_bound q 2
    have : (1 : ℚ) / (2 * (10 : ℚ) ^ 2) = 1 / 200 := by norm_num
    rw [this] at h
    exact h

theorem format_ranking_spec_witness :
    format_tournament_data (some dfC9missing) = Except.error Err.missingColumnError ∧
    dfC9out.columns = requiredColumns ∧
    |pyRound (Rat.divInt 5678 1000) 2 - Rat.divInt 5678 1000| ≤ 1 / 200 :=
  ⟨format_ranking_spec.1 dfC9missing ⟨"Moyenne", by decide, by decide⟩,
   format_ranking_spec.2.1 dfC9 dfC9out (by rfl),
   (format_ranking_spec.2.2.2.2.1 (Rat.divInt 5678 1000)).2⟩

end PokerExcel
